import Mathlib

/-!
Shallow embedding of the `mexprp` evaluation core: the multi-valued result
algebra (`Answer`, from src/answer.rs) and the operator model (`Op`, from
src/op.rs). Fallible Rust code returning `Calculation<N> = Result<Answer<N>, E>`
is embedded as `Except E (Answer N)`; the Rust `panic!` in `unwrap_single`
is embedded as the `none` case of an `Option`.
-/

namespace Mexprp

/-- Embeds `enum Answer<N>` from src/answer.rs: a single answer or
multiple answers. -/
inductive Answer (N : Type) where
  | Single : N → Answer N
  | Multiple : List N → Answer N
deriving DecidableEq, Repr

/-- Embeds `Calculation<N>`: a fallible computation producing an `Answer`,
with error type `E` kept abstract. -/
abbrev Calculation (E N : Type) := Except E (Answer N)

/-- Embeds the local helper `push_answers` of `Answer::op` / `Answer::unop`:
pushes a `Single`'s value, or all of a `Multiple`'s values, onto `list`. -/
def push_answers {N : Type} (answer : Answer N) (list : List N) : List N :=
  match answer with
  | .Single n => list ++ [n]
  | .Multiple ns => list ++ ns

/-- Embeds the inner `for n2 in n2s` loop of `Answer::op` (fixed left value
`n`), carrying the `answers` accumulator; the `?` operator on a failing
`oper` call aborts the loop with that error. -/
def opLoopInner {N E : Type} (oper : N → N → Calculation E N) (n : N) :
    List N → List N → Except E (List N)
  | [], acc => .ok acc
  | n2 :: rest, acc =>
    match oper n n2 with
    | .error e => .error e
    | .ok a => opLoopInner oper n rest (push_answers a acc)

/-- Embeds the `for n in ns` loop of `Answer::op` in the `Multiple`/`Single`
case (fixed right value `n2`). -/
def opLoopLeft {N E : Type} (oper : N → N → Calculation E N) (n2 : N) :
    List N → List N → Except E (List N)
  | [], acc => .ok acc
  | n :: rest, acc =>
    match oper n n2 with
    | .error e => .error e
    | .ok a => opLoopLeft oper n2 rest (push_answers a acc)

/-- Embeds the nested `for n in ns { for n2 in n2s { ... } }` loops of
`Answer::op` in the `Multiple`/`Multiple` case. -/
def opLoopOuter {N E : Type} (oper : N → N → Calculation E N) (n2s : List N) :
    List N → List N → Except E (List N)
  | [], acc => .ok acc
  | n :: rest, acc =>
    match opLoopInner oper n n2s acc with
    | .error e => .error e
    | .ok acc2 => opLoopOuter oper n2s rest acc2

/-- Embeds `Answer::op`: performs `oper` on all the values of `self` with
all the values of `other`, collecting results into one answer. -/
def Answer.op {N E : Type} (self other : Answer N)
    (oper : N → N → Calculation E N) : Calculation E N :=
  match self, other with
  | .Single n, .Single n2 => oper n n2
  | .Single n, .Multiple n2s =>
    match opLoopInner oper n n2s [] with
    | .error e => .error e
    | .ok answers => .ok (.Multiple answers)
  | .Multiple ns, .Single n2 =>
    match opLoopLeft oper n2 ns [] with
    | .error e => .error e
    | .ok answers => .ok (.Multiple answers)
  | .Multiple ns, .Multiple n2s =>
    match opLoopOuter oper n2s ns [] with
    | .error e => .error e
    | .ok answers => .ok (.Multiple answers)

/-- Embeds the `for n in ns` loop of `Answer::unop`. -/
def unopLoop {N E : Type} (oper : N → Calculation E N) :
    List N → List N → Except E (List N)
  | [], acc => .ok acc
  | n :: rest, acc =>
    match oper n with
    | .error e => .error e
    | .ok a => unopLoop oper rest (push_answers a acc)

/-- Embeds `Answer::unop`: performs `oper` on all the values of the answer. -/
def Answer.unop {N E : Type} (self : Answer N) (oper : N → Calculation E N) :
    Calculation E N :=
  match self with
  | .Single n => oper n
  | .Multiple ns =>
    match unopLoop oper ns [] with
    | .error e => .error e
    | .ok answers => .ok (.Multiple answers)

/-- Embeds `Answer::unwrap_single`: the sole value of a `Single`; the
`panic!` on a `Multiple` is embedded as `none`. -/
def Answer.unwrap_single {N : Type} : Answer N → Option N
  | .Single n => some n
  | .Multiple _ => none

/-- Embeds `Answer::to_vec`: the underlying values in original order. -/
def Answer.to_vec {N : Type} : Answer N → List N
  | .Single n => [n]
  | .Multiple ns => ns

/-- Embeds `Answer::join`: pushes the values of `self`, then the values of
`other`, into a fresh vector, returning it as a `Multiple`. -/
def Answer.join {N : Type} (self other : Answer N) : Answer N :=
  let new : List N := []
  let new := match self with
    | .Single n => new ++ [n]
    | .Multiple ns => new ++ ns
  let new := match other with
    | .Single n => new ++ [n]
    | .Multiple ns => new ++ ns
  .Multiple new

/-- True when the answer is a `Single` (used to state shape properties). -/
def Answer.is_single {N : Type} : Answer N → Bool
  | .Single _ => true
  | .Multiple _ => false

/-- Embeds the `for (i, n) in ns.iter().enumerate()` loop of the `Display`
implementation for `Answer`: appends each value's rendering to `buf`,
followed by a comma-space separator when `i + 1 < len`. -/
def displayLoop {N : Type} (fmtN : N → String) (len : Nat) :
    Nat → List N → String → String
  | _, [], buf => buf
  | i, n :: rest, buf =>
    displayLoop fmtN len (i + 1) rest
      ((buf ++ fmtN n) ++ (if i + 1 < len then ", " else ""))

/-- Embeds `impl fmt::Display for Answer`: a `Single` renders as its value;
a `Multiple` builds a brace-delimited buffer via the enumerate loop. `fmtN`
stands for the value type's own rendering. -/
def Answer.display {N : Type} (fmtN : N → String) : Answer N → String
  | .Single n => fmtN n
  | .Multiple ns => displayLoop fmtN ns.length 0 ns "\x7b" ++ "\x7d"

/-- Embeds `enum In` from src/op.rs (the binary operators written between
their operands). -/
inductive In where
  | Pow | Mul | Div | Add | Sub | PlusMinus
deriving DecidableEq, Repr

/-- Embeds `enum Pre` from src/op.rs (the unary operators written before
their operand). -/
inductive Pre where
  | Neg | Pos | PosNeg
deriving DecidableEq, Repr

/-- Embeds `enum Post` from src/op.rs (the unary operators written after
their operand). -/
inductive Post where
  | Fact | Percent
deriving DecidableEq, Repr

/-- Embeds `enum Op` from src/op.rs. -/
inductive Op where
  | In : In → Op
  | Pre : Pre → Op
  | Post : Post → Op
deriving DecidableEq, Repr

/-- Embeds `Op::precedence` (returns `i32`, embedded as `Int`). -/
def Op.precedence : Op → Int
  | .In op =>
    match op with
    | .Pow => 4
    | .Mul | .Div => 3
    | .Add | .Sub | .PlusMinus => 2
  | .Pre op =>
    match op with
    | .Neg | .Pos | .PosNeg => 4
  | .Post op =>
    match op with
    | .Fact => 4
    | .Percent => 4

/-- Embeds `Op::is_left_associative`. -/
def Op.is_left_associative : Op → Bool
  | .In op =>
    match op with
    | .Pow => false
    | .Mul | .Div | .Add | .Sub | .PlusMinus => true
  | .Pre op =>
    match op with
    | .Neg | .Pos | .PosNeg => false
  | .Post op =>
    match op with
    | .Fact => true
    | .Percent => true

/-- Embeds `Op::should_shunt`: true if `other` should be evaluated before
`self`. -/
def Op.should_shunt (self other : Op) : Bool :=
  if (other.precedence > self.precedence) ||
      (other.precedence == self.precedence && other.is_left_associative) then
    true
  else
    false

/-- The row-major list of pairings that `Answer::op` iterates over: each
value of `A` (outer, in stored order) with each value of `B` (inner, in
stored order). -/
def pairsOf {N : Type} (A B : Answer N) : List (N × N) :=
  A.to_vec.flatMap fun a => B.to_vec.map fun b => (a, b)

/-- The error of the first failing pairing of `oper` in the given list,
if any. -/
def firstErr {N E : Type} (oper : N → N → Calculation E N) :
    List (N × N) → Option E
  | [] => none
  | (a, b) :: rest =>
    match oper a b with
    | .error e => some e
    | .ok _ => firstErr oper rest

/-- The error of the first failing value of a unary `oper` in the given
list, if any. -/
def firstErrU {N E : Type} (oper : N → Calculation E N) : List N → Option E
  | [] => none
  | n :: rest =>
    match oper n with
    | .error e => some e
    | .ok _ => firstErrU oper rest

/-- The flat row-major concatenation of the values produced by a total
function `g` over all pairings of `A` and `B`. -/
def crossValues {N : Type} (g : N → N → Answer N) (A B : Answer N) : List N :=
  A.to_vec.flatMap fun a => B.to_vec.flatMap fun b => (g a b).to_vec

/-- Modelled from the spec's wording for rendering a `Multiple`: the
values' textual forms in stored order, comma-and-space-separated (the
reference rendering that `Answer.display` is compared against). -/
def commaSpaceSeparated {N : Type} (fmtN : N → String) : List N → String
  | [] => ""
  | [n] => fmtN n
  | n :: rest => fmtN n ++ ", " ++ commaSpaceSeparated fmtN rest

/-- The shape `Answer::op` produces when the supplied function is the total
function `g`: the function's own outcome in the `Single`/`Single` case, and
a flat `Multiple` of the row-major cross-product values otherwise. -/
def opResultTotal {N : Type} (g : N → N → Answer N) (A B : Answer N) :
    Answer N :=
  match A, B with
  | .Single n, .Single n2 => g n n2
  | _, _ => .Multiple (crossValues g A B)

end Mexprp

namespace Mexprp

/-- The `push_answers` helper appends exactly the answer's value list. -/
theorem push_answers_eq {N : Type} (a : Answer N) (l : List N) :
    push_answers a l = l ++ a.to_vec := by
  cases a <;> rfl

/-- The `Answer::join` result is the concatenation of both value lists,
wrapped in `Multiple`. -/
theorem join_eq_append {N : Type} (A B : Answer N) :
    A.join B = .Multiple (A.to_vec ++ B.to_vec) := by
  cases A <;> cases B <;> simp [Answer.join, Answer.to_vec]

/-- C4: `should_shunt(self, other)` is true exactly when `other` has
strictly higher precedence, or equal precedence and `other` is
left-associative; in particular `Add.should_shunt(Mul) = true`,
`Pow.should_shunt(Pow) = false`, and `Mul.should_shunt(Mul) = true`. -/
theorem should_shunt_spec :
    (∀ self other : Op, self.should_shunt other = true ↔
      (other.precedence > self.precedence ∨
        (other.precedence = self.precedence ∧
          other.is_left_associative = true))) ∧
    Op.should_shunt (.In .Add) (.In .Mul) = true ∧
    Op.should_shunt (.In .Pow) (.In .Pow) = false ∧
    Op.should_shunt (.In .Mul) (.In .Mul) = true := by
  refine ⟨?_, rfl, rfl, rfl⟩
  intro self other
  simp only [Op.should_shunt]
  split <;> rename_i h <;> simp_all

/-- C5: the associativity table of `Op::is_left_associative`, written out
over every one of the eleven operator variants (the function is total by
construction: the match covers the closed enumeration). -/
theorem is_left_associative_table :
    Op.is_left_associative (.In .Pow) = false ∧
    Op.is_left_associative (.In .Mul) = true ∧
    Op.is_left_associative (.In .Div) = true ∧
    Op.is_left_associative (.In .Add) = true ∧
    Op.is_left_associative (.In .Sub) = true ∧
    Op.is_left_associative (.In .PlusMinus) = true ∧
    Op.is_left_associative (.Post .Fact) = true ∧
    Op.is_left_associative (.Post .Percent) = true ∧
    Op.is_left_associative (.Pre .Neg) = false ∧
    Op.is_left_associative (.Pre .Pos) = false ∧
    Op.is_left_associative (.Pre .PosNeg) = false := by
  decide

/-- C10: the precedence table of `Op::precedence`, written out over every
one of the eleven operator variants; all three unary operators, both
postfix-position operators and `Pow` share level 4. -/
theorem precedence_table :
    Op.precedence (.In .Pow) = 4 ∧
    Op.precedence (.In .Mul) = 3 ∧
    Op.precedence (.In .Div) = 3 ∧
    Op.precedence (.In .Add) = 2 ∧
    Op.precedence (.In .Sub) = 2 ∧
    Op.precedence (.In .PlusMinus) = 2 ∧
    Op.precedence (.Pre .Neg) = 4 ∧
    Op.precedence (.Pre .Pos) = 4 ∧
    Op.precedence (.Pre .PosNeg) = 4 ∧
    Op.precedence (.Post .Fact) = 4 ∧
    Op.precedence (.Post .Percent) = 4 := by
  decide

/-- C6: `Answer::join` concatenates both operands' values in order (a
`Single` contributing one value) into a flat `Multiple`, invoking no
function and deduplicating nothing. -/
theorem join_spec :
    ∀ (N : Type) (A B : Answer N) (a b c : N),
    A.join B = .Multiple (A.to_vec ++ B.to_vec) ∧
    (Answer.Single a).join (.Single b) = .Multiple [a, b] ∧
    (Answer.Multiple [a, b]).join (.Single c) = .Multiple [a, b, c] ∧
    (Answer.Single a).join (.Single a) = .Multiple [a, a] := by
  intro N A B a b c
  exact ⟨join_eq_append A B, rfl, rfl, rfl⟩

/-- C7: `Answer::unwrap_single` yields the sole value of a `Single` and is
fatal (embedded as `none`) on every `Multiple`; on `Multiple [1, 2]` it
does not return `1`. -/
theorem unwrap_single_spec :
    ∀ (N : Type) (n : N) (ns : List N),
    (Answer.Single n).unwrap_single = some n ∧
    (Answer.Multiple ns).unwrap_single = none ∧
    (Answer.Multiple [(1 : Int), 2]).unwrap_single = none ∧
    (Answer.Multiple [(1 : Int), 2]).unwrap_single ≠ some 1 := by
  intro N n ns
  exact ⟨rfl, rfl, rfl, by decide⟩

/-- With a total function `g`, the inner loop of `Answer::op` succeeds and
appends each pairing's values to the accumulator in order. -/
theorem opLoopInner_total {N E : Type} (oper : N → N → Calculation E N)
    (g : N → N → Answer N) (hg : ∀ a b, oper a b = .ok (g a b)) (n : N) :
    ∀ (n2s acc : List N),
    opLoopInner oper n n2s acc =
      .ok (acc ++ n2s.flatMap fun b => (g n b).to_vec) := by
  intro n2s
  induction n2s with
  | nil => intro acc; simp [opLoopInner]
  | cons b rest ih =>
    intro acc
    simp [opLoopInner, hg, push_answers_eq, ih, List.append_assoc]

/-- With a total function `g`, the `Multiple`/`Single` loop of `Answer::op`
succeeds and appends each pairing's values to the accumulator in order. -/
theorem opLoopLeft_total {N E : Type} (oper : N → N → Calculation E N)
    (g : N → N → Answer N) (hg : ∀ a b, oper a b = .ok (g a b)) (n2 : N) :
    ∀ (ns acc : List N),
    opLoopLeft oper n2 ns acc =
      .ok (acc ++ ns.flatMap fun a => (g a n2).to_vec) := by
  intro ns
  induction ns with
  | nil => intro acc; simp [opLoopLeft]
  | cons a rest ih =>
    intro acc
    simp [opLoopLeft, hg, push_answers_eq, ih, List.append_assoc]

/-- With a total function `g`, the nested loops of `Answer::op` succeed and
append the row-major cross-product values to the accumulator. -/
theorem opLoopOuter_total {N E : Type} (oper : N → N → Calculation E N)
    (g : N → N → Answer N) (hg : ∀ a b, oper a b = .ok (g a b))
    (n2s : List N) :
    ∀ (ns acc : List N),
    opLoopOuter oper n2s ns acc =
      .ok (acc ++ ns.flatMap fun a => n2s.flatMap fun b => (g a b).to_vec) := by
  intro ns
  induction ns with
  | nil => intro acc; simp [opLoopOuter]
  | cons a rest ih =>
    intro acc
    simp [opLoopOuter, opLoopInner_total oper g hg, ih, List.append_assoc]

/-- With a total function `g`, `Answer::op` always succeeds, with the shape
described by `opResultTotal`. -/
theorem op_total {N E : Type} (A B : Answer N)
    (oper : N → N → Calculation E N) (g : N → N → Answer N)
    (hg : ∀ a b, oper a b = .ok (g a b)) :
    A.op B oper = .ok (opResultTotal g A B) := by
  cases A <;> cases B <;>
    simp [Answer.op, opResultTotal, crossValues, Answer.to_vec, hg,
      opLoopInner_total oper g hg, opLoopLeft_total oper g hg,
      opLoopOuter_total oper g hg]

/-- The values of `opResultTotal` are exactly the row-major cross-product
values. -/
theorem to_vec_opResultTotal {N : Type} (g : N → N → Answer N)
    (A B : Answer N) :
    (opResultTotal g A B).to_vec = crossValues g A B := by
  cases A <;> cases B <;>
    simp [opResultTotal, crossValues, Answer.to_vec]

/-- Length of a row-major cross-product list built by mapping a two-place
function. -/
theorem length_flatMap_map {α β γ : Type} (l1 : List α) (l2 : List β)
    (f : α → β → γ) :
    (l1.flatMap fun a => l2.map fun b => f a b).length =
      l1.length * l2.length := by
  induction l1 with
  | nil => simp
  | cons a rest ih => simp [ih, Nat.succ_mul, Nat.add_comm]

/-- A flatMap of singletons is a map. -/
theorem flatMap_singleton_eq_map {α β : Type} (l : List α) (f : α → β) :
    (l.flatMap fun a => [f a]) = l.map f := by
  induction l with
  | nil => rfl
  | cons a rest ih => simp [ih]

/-- C1 counterexample: a never-failing combining function that yields a
two-valued outcome on a `Single`/`Single` pairing makes `Answer::op`
produce 2 values, not m times n = 1 times 1 = 1. -/
theorem op_cardinality_cex :
    (Answer.Single (1 : Int)).op (.Single 2)
        (fun _ _ => (.ok (.Multiple [3, 4]) : Calculation Unit Int)) =
      .ok (.Multiple [3, 4]) ∧
    (Answer.Multiple [(3 : Int), 4]).to_vec.length ≠
      (Answer.Single (1 : Int)).to_vec.length *
        (Answer.Single (2 : Int)).to_vec.length := by
  exact ⟨rfl, by decide⟩

/-- C1 amended: for a combining function that never fails AND yields a
single value for every pairing, `Answer::op` succeeds with exactly m times
n values, in row-major order (outer loop over `A`'s stored values, inner
loop over `B`'s stored values, a `Single` contributing exactly one
value). -/
theorem op_cardinality {N E : Type} (A B : Answer N)
    (oper : N → N → Calculation E N) (f : N → N → N)
    (hf : ∀ a b, oper a b = .ok (.Single (f a b))) :
    ∃ r : Answer N, A.op B oper = .ok r ∧
      r.to_vec = (A.to_vec.flatMap fun a => B.to_vec.map fun b => f a b) ∧
      r.to_vec.length = A.to_vec.length * B.to_vec.length := by
  have hone : ∀ a b : N, (Answer.Single (f a b)).to_vec = [f a b] :=
    fun a b => rfl
  refine ⟨opResultTotal (fun a b => .Single (f a b)) A B,
    op_total A B oper _ hf, ?_, ?_⟩
  · rw [to_vec_opResultTotal]
    simp only [crossValues, hone, flatMap_singleton_eq_map]
  · rw [to_vec_opResultTotal]
    simp only [crossValues, hone, flatMap_singleton_eq_map]
    exact length_flatMap_map A.to_vec B.to_vec f

/-- C1 witness: the amended cardinality law at `A = Multiple [1, 2]`,
`B = Multiple [10, 20]`, with multiplication as the combining function. -/
theorem op_cardinality_witness :
    ∃ r : Answer Int,
      (Answer.Multiple [(1 : Int), 2]).op (.Multiple [10, 20])
          (fun a b => (.ok (.Single (a * b)) : Calculation Unit Int)) =
        .ok r ∧
      r.to_vec =
        ((Answer.Multiple [(1 : Int), 2]).to_vec.flatMap fun a =>
          (Answer.Multiple [(10 : Int), 20]).to_vec.map fun b => a * b) ∧
      r.to_vec.length =
        (Answer.Multiple [(1 : Int), 2]).to_vec.length *
          (Answer.Multiple [(10 : Int), 20]).to_vec.length :=
  op_cardinality _ _ _ (fun a b => a * b) (fun _ _ => rfl)

/-- C2 counterexample: combining a `Single` with a `Single` via a
never-failing function whose outcome is two-valued yields a `Multiple`,
not a `Single`; and a one-element `Multiple` combined with a `Single`
yields a one-valued result that is a `Multiple`, not a `Single`. -/
theorem op_flattening_cex :
    (Answer.Single (1 : Int)).op (.Single 2)
        (fun _ _ => (.ok (.Multiple [3, 4]) : Calculation Unit Int)) =
      .ok (.Multiple [3, 4]) ∧
    (Answer.Multiple [(3 : Int), 4]).is_single = false ∧
    (Answer.Multiple [(1 : Int)]).op (.Single 2)
        (fun a b => (.ok (.Single (a + b)) : Calculation Unit Int)) =
      .ok (.Multiple [3]) ∧
    (Answer.Multiple [(3 : Int)]).to_vec.length = 1 ∧
    (Answer.Multiple [(3 : Int)]).is_single = false := by
  refine ⟨rfl, rfl, ?_, rfl, rfl⟩
  simp [Answer.op, opLoopLeft, push_answers]

/-- C2 amended: `Single op Single` returns the function's outcome for that
pair unchanged (so a `Single` whenever the function yields one); with a
never-failing function, every other shape combination yields a `Multiple`
whose values are the flat row-major splice of each pairing's values —
alternatives are never nested, since values of pairings are spliced into
one plain value list (structurally, a `Multiple` can hold only values,
never another answer). -/
theorem op_flattening {N E : Type} (A B : Answer N)
    (oper : N → N → Calculation E N) (g : N → N → Answer N)
    (hg : ∀ a b, oper a b = .ok (g a b))
    (h : A.is_single = false ∨ B.is_single = false) :
    (∀ n n2 : N, (Answer.Single n).op (Answer.Single n2) oper = oper n n2) ∧
    A.op B oper = .ok (.Multiple (crossValues g A B)) := by
  refine ⟨fun n n2 => rfl, ?_⟩
  rw [op_total A B oper g hg]
  cases A <;> cases B <;>
    simp_all [opResultTotal, Answer.is_single]

/-- C2 witness: the amended flattening law at `A = Multiple [1, 2]`,
`B = Single 10`, with addition as the combining function. -/
theorem op_flattening_witness :
    (∀ n n2 : Int, (Answer.Single n).op (Answer.Single n2)
        (fun a b => (.ok (.Single (a + b)) : Calculation Unit Int)) =
      (fun a b => (.ok (.Single (a + b)) : Calculation Unit Int)) n n2) ∧
    (Answer.Multiple [(1 : Int), 2]).op (.Single 10)
        (fun a b => (.ok (.Single (a + b)) : Calculation Unit Int)) =
      .ok (.Multiple (crossValues (fun a b => .Single (a + b))
        (.Multiple [(1 : Int), 2]) (.Single 10))) :=
  op_flattening (.Multiple [(1 : Int), 2]) (.Single 10) _
    (fun a b => .Single (a + b)) (fun _ _ => rfl) (Or.inl rfl)

/-- Scanning a concatenation for the first failing pairing inspects the
first part first. -/
theorem firstErr_append {N E : Type} (oper : N → N → Calculation E N) :
    ∀ (l1 l2 : List (N × N)),
    firstErr oper (l1 ++ l2) =
      match firstErr oper l1 with
      | some e => some e
      | none => firstErr oper l2 := by
  intro l1 l2
  induction l1 with
  | nil => simp [firstErr]
  | cons p rest ih =>
    obtain ⟨a, b⟩ := p
    simp only [List.cons_append, firstErr]
    cases hx : oper a b <;> simp [ih]

/-- If a pairing of the inner loop fails, the loop aborts with the first
such failure. -/
theorem opLoopInner_err {N E : Type} (oper : N → N → Calculation E N)
    (n : N) :
    ∀ (n2s acc : List N) (e : E),
    firstErr oper (n2s.map fun b => (n, b)) = some e →
    opLoopInner oper n n2s acc = .error e := by
  intro n2s
  induction n2s with
  | nil => intro acc e h; simp [firstErr] at h
  | cons b rest ih =>
    intro acc e h
    simp only [List.map_cons, firstErr] at h
    cases hx : oper n b with
    | error e2 =>
      rw [hx] at h
      simp only [Option.some.injEq] at h
      subst h
      simp [opLoopInner, hx]
    | ok a =>
      rw [hx] at h
      simp only at h
      simp only [opLoopInner, hx]
      exact ih _ e h

/-- If no pairing of the inner loop fails, the loop succeeds. -/
theorem opLoopInner_ok {N E : Type} (oper : N → N → Calculation E N)
    (n : N) :
    ∀ (n2s acc : List N),
    firstErr oper (n2s.map fun b => (n, b)) = none →
    ∃ acc2, opLoopInner oper n n2s acc = .ok acc2 := by
  intro n2s
  induction n2s with
  | nil => intro acc _; exact ⟨acc, rfl⟩
  | cons b rest ih =>
    intro acc h
    simp only [List.map_cons, firstErr] at h
    cases hx : oper n b with
    | error e2 => rw [hx] at h; simp at h
    | ok a =>
      rw [hx] at h
      simp only at h
      simp only [opLoopInner, hx]
      exact ih _ h

/-- If a pairing of the `Multiple`/`Single` loop fails, the loop aborts
with the first such failure. -/
theorem opLoopLeft_err {N E : Type} (oper : N → N → Calculation E N)
    (n2 : N) :
    ∀ (ns acc : List N) (e : E),
    firstErr oper (ns.map fun a => (a, n2)) = some e →
    opLoopLeft oper n2 ns acc = .error e := by
  intro ns
  induction ns with
  | nil => intro acc e h; simp [firstErr] at h
  | cons a rest ih =>
    intro acc e h
    simp only [List.map_cons, firstErr] at h
    cases hx : oper a n2 with
    | error e2 =>
      rw [hx] at h
      simp only [Option.some.injEq] at h
      subst h
      simp [opLoopLeft, hx]
    | ok an =>
      rw [hx] at h
      simp only at h
      simp only [opLoopLeft, hx]
      exact ih _ e h

/-- If a pairing of the nested loops fails, the nested loops abort with
the first such failure in row-major order. -/
theorem opLoopOuter_err {N E : Type} (oper : N → N → Calculation E N)
    (n2s : List N) :
    ∀ (ns acc : List N) (e : E),
    firstErr oper (ns.flatMap fun a => n2s.map fun b => (a, b)) = some e →
    opLoopOuter oper n2s ns acc = .error e := by
  intro ns
  induction ns with
  | nil => intro acc e h; simp [firstErr] at h
  | cons a rest ih =>
    intro acc e h
    rw [List.flatMap_cons, firstErr_append] at h
    cases hx : firstErr oper (n2s.map fun b => (a, b)) with
    | some e2 =>
      rw [hx] at h
      simp only [Option.some.injEq] at h
      subst h
      simp [opLoopOuter, opLoopInner_err oper a n2s acc e2 hx]
    | none =>
      rw [hx] at h
      simp only at h
      obtain ⟨acc2, hacc⟩ := opLoopInner_ok oper a n2s acc hx
      simp only [opLoopOuter, hacc]
      exact ih acc2 e h

/-- If a value of the unary loop fails, the loop aborts with the first
such failure. -/
theorem unopLoop_err {N E : Type} (oper : N → Calculation E N) :
    ∀ (ns acc : List N) (e : E),
    firstErrU oper ns = some e → unopLoop oper ns acc = .error e := by
  intro ns
  induction ns with
  | nil => intro acc e h; simp [firstErrU] at h
  | cons n rest ih =>
    intro acc e h
    simp only [firstErrU] at h
    cases hx : oper n with
    | error e2 =>
      rw [hx] at h
      simp only [Option.some.injEq] at h
      subst h
      simp [unopLoop, hx]
    | ok a =>
      rw [hx] at h
      simp only at h
      simp only [unopLoop, hx]
      exact ih _ e h

/-- C3: if some pairing fails, `Answer::op` returns the first failure in
row-major iteration order, unchanged (and likewise `Answer::unop` over its
single value sequence); the `Except` result carries no partial output
alongside the failure. -/
theorem op_short_circuit {N E : Type} (A B C : Answer N)
    (oper : N → N → Calculation E N) (operU : N → Calculation E N)
    (e e2 : E)
    (h1 : firstErr oper (pairsOf A B) = some e)
    (h2 : firstErrU operU C.to_vec = some e2) :
    A.op B oper = .error e ∧ C.unop operU = .error e2 := by
  constructor
  · cases A with
    | Single n =>
      cases B with
      | Single n2 =>
        simp only [pairsOf, Answer.to_vec, List.flatMap_cons,
          List.map_cons, List.map_nil, List.flatMap_nil, List.append_nil,
          firstErr] at h1
        cases hx : oper n n2 with
        | error e3 =>
          rw [hx] at h1
          simp only [Option.some.injEq] at h1
          subst h1
          simpa [Answer.op] using hx
        | ok a =>
          rw [hx] at h1
          simp [firstErr] at h1
      | Multiple n2s =>
        have hp : pairsOf (.Single n) (.Multiple n2s) =
            n2s.map fun b => (n, b) := by
          simp [pairsOf, Answer.to_vec]
        rw [hp] at h1
        simp [Answer.op, opLoopInner_err oper n n2s [] e h1]
    | Multiple ns =>
      cases B with
      | Single n2 =>
        have hp : pairsOf (.Multiple ns) (.Single n2) =
            ns.map fun a => (a, n2) := by
          simp only [pairsOf, Answer.to_vec, List.map_cons, List.map_nil]
          exact flatMap_singleton_eq_map ns fun a => (a, n2)
        rw [hp] at h1
        simp [Answer.op, opLoopLeft_err oper n2 ns [] e h1]
      | Multiple n2s =>
        simp only [pairsOf, Answer.to_vec] at h1
        simp [Answer.op, opLoopOuter_err oper n2s ns [] e h1]
  · cases C with
    | Single n =>
      simp only [Answer.to_vec, firstErrU] at h2
      cases hx : operU n with
      | error e3 =>
        rw [hx] at h2
        simp only [Option.some.injEq] at h2
        subst h2
        simpa [Answer.unop] using hx
      | ok a =>
        rw [hx] at h2
        simp [firstErrU] at h2
    | Multiple ns =>
      simp only [Answer.to_vec] at h2
      simp [Answer.unop, unopLoop_err operU ns [] e2 h2]

/-- C3 witness: a function failing first at the pairing `(1, 4)` makes
`op` on `Multiple [1, 2]` and `Multiple [3, 4]` return error `7`, and a
unary function failing at `2` makes `unop` on `Multiple [1, 2]` return
error `9`. -/
theorem op_short_circuit_witness :
    (Answer.Multiple [(1 : Int), 2]).op (.Multiple [3, 4])
        (fun a b => if b = 4 then (.error 7 : Calculation Nat Int)
          else .ok (.Single (a + b))) = .error 7 ∧
    (Answer.Multiple [(1 : Int), 2]).unop
        (fun a => if a = 2 then (.error 9 : Calculation Nat Int)
          else .ok (.Single a)) = .error 9 :=
  op_short_circuit (.Multiple [(1 : Int), 2]) (.Multiple [3, 4])
    (.Multiple [(1 : Int), 2]) _ _ 7 9 (by decide) (by decide)

/-- The enumerate loop of the `Display` implementation produces the
comma-and-space-separated rendering of the remaining values, appended to
the buffer, whenever `len` is the index the loop will reach at the end of
the list (as in the real call, where `len` is the whole list's length and
the loop starts at index 0). -/
theorem displayLoop_eq {N : Type} (fmtN : N → String) :
    ∀ (rest : List N) (i len : Nat) (buf : String),
    len = i + rest.length →
    displayLoop fmtN len i rest buf =
      buf ++ commaSpaceSeparated fmtN rest := by
  intro rest
  induction rest with
  | nil =>
    intro i len buf _
    simp [displayLoop, commaSpaceSeparated, String.append_empty]
  | cons n rest' ih =>
    intro i len buf h
    simp only [List.length_cons] at h
    cases rest' with
    | nil =>
      have hlt : ¬ (i + 1 < len) := by simp only [List.length_nil] at h; omega
      simp [displayLoop, hlt, commaSpaceSeparated, String.append_empty]
    | cons m t =>
      have hlt : i + 1 < len := by simp only [List.length_cons] at h; omega
      have step : displayLoop fmtN len i (n :: m :: t) buf =
          displayLoop fmtN len (i + 1) (m :: t) ((buf ++ fmtN n) ++ ", ") := by
        simp [displayLoop, hlt]
      rw [step, ih (i + 1) len ((buf ++ fmtN n) ++ ", ")
        (by simp only [List.length_cons] at h ⊢; omega)]
      simp [commaSpaceSeparated, String.append_assoc]

/-- C8: a `Single` renders as its value's own textual form; a `Multiple`
renders as a brace-delimited, comma-and-space-separated list of its
values' textual forms in stored order; `Multiple [2, -2]` renders as
`\x7b2, -2\x7d` and `Single 5` as `5` under the integer rendering. -/
theorem display_spec :
    ∀ (N : Type) (fmtN : N → String) (n : N) (ns : List N),
    (Answer.Single n).display fmtN = fmtN n ∧
    (Answer.Multiple ns).display fmtN =
      "\x7b" ++ commaSpaceSeparated fmtN ns ++ "\x7d" ∧
    (Answer.Multiple [(2 : Int), -2]).display toString = "\x7b2, -2\x7d" ∧
    (Answer.Single (5 : Int)).display toString = "5" := by
  intro N fmtN n ns
  refine ⟨rfl, ?_, by decide, rfl⟩
  show displayLoop fmtN ns.length 0 ns "\x7b" ++ "\x7d" = _
  rw [displayLoop_eq fmtN ns 0 ns.length "\x7b" (by simp)]

/-- C9: zero- and one-element `Multiple`s, though not produced by
well-formed producers, still combine, transform, join, convert and render
correctly: each operation treats them as their (possibly empty) value
sequence and completes normally. -/
theorem degenerate_multiple_spec :
    ∀ (N : Type) (x y : N) (g : N → N → N) (u : N → N) (fmtN : N → String),
    (Answer.Multiple [x]).op (.Single y)
        (fun a b => (.ok (.Single (g a b)) : Calculation Unit N)) =
      .ok (.Multiple [g x y]) ∧
    (Answer.Multiple ([] : List N)).op (.Single y)
        (fun a b => (.ok (.Single (g a b)) : Calculation Unit N)) =
      .ok (.Multiple []) ∧
    (Answer.Single y).op (.Multiple [x])
        (fun a b => (.ok (.Single (g a b)) : Calculation Unit N)) =
      .ok (.Multiple [g y x]) ∧
    (Answer.Multiple [x]).unop
        (fun a => (.ok (.Single (u a)) : Calculation Unit N)) =
      .ok (.Multiple [u x]) ∧
    (Answer.Multiple ([] : List N)).unop
        (fun a => (.ok (.Single (u a)) : Calculation Unit N)) =
      .ok (.Multiple []) ∧
    (Answer.Multiple [x]).join (.Single y) = .Multiple [x, y] ∧
    (Answer.Multiple ([] : List N)).join (.Single y) = .Multiple [y] ∧
    (Answer.Multiple [x]).to_vec = [x] ∧
    (Answer.Multiple ([] : List N)).to_vec = [] ∧
    (Answer.Multiple [x]).display fmtN = "\x7b" ++ fmtN x ++ "\x7d" ∧
    (Answer.Multiple ([] : List N)).display fmtN = "\x7b\x7d" := by
  intro N x y g u fmtN
  refine ⟨rfl, rfl, rfl, rfl, rfl, rfl, rfl, rfl, rfl, ?_, rfl⟩
  show displayLoop fmtN 1 0 [x] "\x7b" ++ "\x7d" = _
  rw [displayLoop_eq fmtN [x] 0 1 "\x7b" (by simp)]
  rfl

end Mexprp
